import Mathlib

/-!
Verification development for the QCE engine repository.

The repository has two algorithmic units:

* `qce_read` in `qce_portal_app(1).py`: a rule-based lexical scorer that
  joins 1–3 input lines, derives eight boolean vocabulary flags by substring
  containment, and combines them into intent, discordance, wave presence,
  a wave multiplier, a consent score and a three-way status.
* `QuantumConsentEngine.evaluate_consent` in `qce_app_translated.py`: a pure
  threshold check over three externally supplied values.

Modelling conventions: text is `List Char` (Python strings are sequences of
Unicode code points, and `len`/`in` act on code points); Python float
arithmetic is embedded as exact rational arithmetic over `ℚ` (every constant
in the source is a short decimal literal, and the output rounding to three
decimals is presentation only, so the record stores the full-precision
values); `str.strip` is modelled with `Char.isWhitespace`; the sha256-derived
`input_hash` field is presentation-only logging and is omitted from the
embedded record, as are the cosmetic UI layers.
-/

namespace QCE

/-- A text is a sequence of Unicode characters, as in Python `str`. -/
abbrev Text := List Char

/-- Python `str.strip()`: drop leading and trailing whitespace. -/
def pyStrip (s : Text) : Text :=
  ((s.dropWhile Char.isWhitespace).reverse.dropWhile Char.isWhitespace).reverse

/-- Python `sep.join(parts)` for a one-character separator. -/
def joinWith (sep : Char) : List Text → Text
  | [] => []
  | [t] => t
  | t :: t' :: ts => t ++ sep :: joinWith sep (t' :: ts)

/-- Vocabulary `HEDGES` from the source. -/
def HEDGES : List Text := List.map String.toList
  ["อาจ", "น่าจะ", "เหมือน", "คิดว่า", "คง", "ลอง", "ถ้า", "หรือเปล่า", "ไหม",
   "หรือไม่", "บางที", "ประมาณ", "หวังว่า", "เชื่อว่า",
   "maybe", "might", "perhaps", "seems", "seem", "sort of", "kind of", "try",
   "if", "whether", "hope", "believe"]

/-- Vocabulary `ASSERTIVES` from the source. -/
def ASSERTIVES : List Text := List.map String.toList
  ["ฉันรู้", "รู้", "พร้อม", "ชัดเจน", "แน่ชัด", "ตั้งใจ", "ต้องการ", "ยืนยัน",
   "แน่นอน", "ขออนุญาต", "เห็นชัด", "ชัดแจ้ง", "พร้อมแล้ว", "รับรู้", "ยอมรับ", "ตกลง",
   "i know", "know", "ready", "clearly", "definitely", "certainly", "intend",
   "intention", "want", "confirm", "agree"]

/-- Vocabulary `NEG_CONFLICT` from the source. -/
def NEG_CONFLICT : List Text := List.map String.toList
  ["ไม่แน่ใจ", "ไม่มั่นใจ", "ไม่ชัดเจน", "ไม่พร้อม", "ลังเล", "สับสน", "กลัว",
   "กังวล", "ขัดแย้ง", "ตีกัน", "ไม่แน่", "ไม่รู้", "ไม่เข้าใจ", "ไม่อยาก"]

/-- Vocabulary `THETA_TOKENS` from the source. -/
def THETA_TOKENS : List Text := List.map String.toList
  ["นิ่ง", "แก่น", "เป็นหนึ่งเดียว", "วงกลม", "ภายใน", "สภาวะ", "ความหมาย",
   "เงียบ", "รู้โดยไม่พูด", "ไม่ต้องพูด", "ความจริง", "ชัดแจ้ง", "ศูนย์กลาง", "หนึ่งเดียว"]

/-- Vocabulary `GAMMA_TOKENS` from the source. -/
def GAMMA_TOKENS : List Text := List.map String.toList
  ["พร้อม", "ยืนยัน", "ตกลง", "เริ่ม", "ทำเลย", "ขอ", "รับรอง", "ตรง", "พุ่ง",
   "รู้ทันที", "เดี๋ยวนี้", "รับรู้", "ชัดเจน", "ประกาศ"]

/-- Vocabulary `ALPHA_TOKENS` from the source. -/
def ALPHA_TOKENS : List Text := List.map String.toList
  ["สงบ", "เบา", "สบาย", "นิ่งๆ", "ช้า", "ผ่อน"]

/-- Vocabulary `BETA_TOKENS` from the source. -/
def BETA_TOKENS : List Text := List.map String.toList
  ["เพราะ", "ดังนั้น", "เหตุผล", "วิเคราะห์", "ตรรกะ", "โครงสร้าง", "ขั้นตอน", "ข้อเท็จจริง"]

/-- Vocabulary `DELTA_TOKENS` from the source. -/
def DELTA_TOKENS : List Text := List.map String.toList
  ["พัก", "ล้า", "เหนื่อย", "เจ็บ", "ช้า", "ฟื้น", "หลับ", "หยุดพัก"]

/-- The secondary "core/essence" vocabulary used only for the theta wave
bonus, inlined in the source at the `wave_scores['theta'] += 0.1` line. -/
def CORE_TOKENS : List Text := List.map String.toList
  ["วงกลม", "แก่น", "สภาวะ", "หนึ่งเดียว", "เงียบ"]

/-- The five wave categories. -/
inductive Wave
  | alpha
  | beta
  | theta
  | gamma
  | delta
deriving DecidableEq, Repr

/-- Table `WAVE_MULTIPLIER` from the source. -/
def WAVE_MULTIPLIER : Wave → ℚ
  | .alpha => 1.00
  | .beta => 0.95
  | .theta => 1.05
  | .delta => 0.90
  | .gamma => 1.10

/-- Function `contains_any(text, vocab)`: true iff some token of the
vocabulary is a substring of the text (Python `tok in text`). -/
def contains_any (text : Text) (vocab : List Text) : Bool :=
  vocab.any fun tok => decide (tok <:+: text)

/-- The feature-flag record built at the start of `qce_read`. -/
structure Flags where
  has_hedge : Bool
  has_assertive : Bool
  has_neg_conflict : Bool
  has_theta : Bool
  has_gamma : Bool
  has_alpha : Bool
  has_beta : Bool
  has_delta : Bool
deriving DecidableEq, Repr

/-- The evaluation text of `qce_read`:
`'\n'.join([t.strip() for t in texts if t and t.strip()])`.
(`THAI_LOWER` in the source is the identity.) -/
def evalText (texts : List Text) : Text :=
  joinWith '\n'
    (List.map pyStrip (texts.filter fun t => !t.isEmpty && !(pyStrip t).isEmpty))

/-- The eight vocabulary feature flags of `qce_read`. -/
def flagsOf (text : Text) : Flags where
  has_hedge := contains_any text HEDGES
  has_assertive := contains_any text ASSERTIVES
  has_neg_conflict := contains_any text NEG_CONFLICT
  has_theta := contains_any text THETA_TOKENS
  has_gamma := contains_any text GAMMA_TOKENS
  has_alpha := contains_any text ALPHA_TOKENS
  has_beta := contains_any text BETA_TOKENS
  has_delta := contains_any text DELTA_TOKENS

/-- Clamp to the unit interval: `max(0.0, min(1.0, x))`. -/
def clamp01 (x : ℚ) : ℚ := max 0 (min 1 x)

/-- Intent estimation of `qce_read`: sequential additive adjustments from a
0.5 base, then clamp to `[0,1]`. -/
def intentOf (f : Flags) (short_utterance very_short : Bool) : ℚ :=
  let i : ℚ := 0.5
  let i := if f.has_assertive then i + 0.18 else i
  let i := if f.has_theta then i + 0.15 else i
  let i := if f.has_gamma then i + 0.15 else i
  let i := if f.has_alpha then i + 0.05 else i
  let i := if f.has_beta then i + 0.03 else i
  let i := if f.has_hedge then i - 0.12 else i
  let i := if f.has_neg_conflict then i - 0.20 else i
  let i := if short_utterance then i + 0.05 else i
  let i := if very_short && f.has_gamma then i + 0.03 else i
  clamp01 i

/-- Discordance estimation of `qce_read`: sequential adjustments from a
0.30 base, then clamp to `[0,1]`. -/
def discordOf (f : Flags) (text : Text) : ℚ :=
  let d : ℚ := 0.30
  let d := if f.has_hedge then d + 0.20 else d
  let d := if f.has_neg_conflict then d + 0.25 else d
  let d := if f.has_assertive then d - 0.15 else d
  let d := if f.has_theta then d - 0.12 else d
  let d := if decide (String.toList "ไม่ต้องพูด" <:+: text) then d - 0.08 else d
  let d := if f.has_beta && !f.has_theta && !f.has_gamma then d + 0.05 else d
  clamp01 d

/-- Wave scoring of `qce_read`: base contribution per flag, plus the short
gamma bonus and the core/essence theta bonus. -/
def wave_scoresOf (f : Flags) (short_utterance : Bool) (text : Text) : Wave → ℚ
  | .alpha => if f.has_alpha then 0.6 else 0
  | .beta => if f.has_beta then 0.6 else 0
  | .theta =>
      (if f.has_theta then 0.7 else 0)
        + (if contains_any text CORE_TOKENS then 0.1 else 0)
  | .gamma =>
      (if f.has_gamma then 0.7 else 0) + (if short_utterance then 0.1 else 0)
  | .delta => if f.has_delta then 0.6 else 0

/-- The insertion order of the `wave_scores` dict in the source. -/
def waveOrder : List Wave := [.alpha, .beta, .theta, .gamma, .delta]

/-- Present waves: categories scoring at least 0.6 in dict order, defaulting
to `[alpha]` when none qualifies. -/
def present_wavesOf (scores : Wave → ℚ) : List Wave :=
  let pw := waveOrder.filter fun w => decide ((0.6 : ℚ) ≤ scores w)
  if pw.isEmpty then [Wave.alpha] else pw

/-- Wave multiplier: `float(np.mean([WAVE_MULTIPLIER[w] for w in present_waves]))`. -/
def wmOf (pw : List Wave) : ℚ := (pw.map WAVE_MULTIPLIER).sum / (pw.length : ℚ)

/-- The explainability reasons list of `qce_read`, in source order. -/
def reasonsOf (f : Flags) (short_utterance : Bool) : List String :=
  (if f.has_assertive then ["พบสัญญาณยืนยัน/ตั้งใจ → หนุน Intent"] else [])
    ++ (if f.has_hedge then ["พบถ้อยคำลังเล/เงื่อนไข → เพิ่ม Discordance"] else [])
    ++ (if f.has_neg_conflict then ["พบสัญญาณความไม่มั่นใจ/ตีกันภายใน"] else [])
    ++ (if f.has_theta then ["ถ้อยคำชี้แก่น/สภาวะ → จัดเป็น THETA"] else [])
    ++ (if f.has_gamma || short_utterance then ["ถ้อยคำคม/สั้น/ประกาศสภาวะ → จัดเป็น GAMMA"] else [])
    ++ (if f.has_alpha then ["โทนสงบ/สบาย → สนับสนุน ALPHA"] else [])
    ++ (if f.has_beta then ["การอธิบายเชิงเหตุผล → สนับสนุน BETA"] else [])

/-- The result record of `qce_read` (full-precision values; the sha256 log
hash is omitted). -/
structure ReadingResult where
  raw_text : Text
  intent : ℚ
  discordance : ℚ
  waves : List Wave
  wave_multiplier : ℚ
  consent_score : ℚ
  status : String
  reasons : List String
deriving DecidableEq, Repr

/-- The `qce_read` scorer from `qce_portal_app(1).py`. -/
def qce_read (texts : List Text) : ReadingResult :=
  let raw := evalText texts
  let text := raw
  let f := flagsOf text
  let char_len := text.length
  let short_utterance : Bool := decide (char_len ≤ 30)
  let very_short : Bool := decide (char_len ≤ 15)
  let intent := intentOf f short_utterance very_short
  let discord := discordOf f text
  let scores := wave_scoresOf f short_utterance text
  let present_waves := present_wavesOf scores
  let wm := wmOf present_waves
  let ni := max 0 (intent - discord)
  let coh := 1 - |intent - (1 - discord)|
  let cs := clamp01 ((0.7 * ni + 0.3 * coh) * wm)
  let status :=
    if cs ≥ 0.75 then "Consent Granted"
    else if cs ≥ 0.50 then "Needs Clarification"
    else "Consent Denied"
  { raw_text := raw
    intent := intent
    discordance := discord
    waves := present_waves
    wave_multiplier := wm
    consent_score := cs
    status := status
    reasons := reasonsOf f short_utterance }

/-- Configuration record `SystemConfig` from `qce_app_translated.py`. -/
structure SystemConfig where
  discordance_threshold : ℚ
  intent_threshold : ℚ
  expected_harmonics : List String

/-- The constructor values of `SystemConfig`. -/
def defaultConfig : SystemConfig where
  discordance_threshold := 0.7
  intent_threshold := 0.88
  expected_harmonics := ["alpha", "beta"]

/-- Method `QuantumConsentEngine.evaluate_consent` from `qce_app_translated.py`. -/
def evaluate_consent (config : SystemConfig) (intent_score discordance : ℚ)
    (harmonics : String) : Bool :=
  decide (intent_score ≥ config.intent_threshold)
    && decide (discordance ≤ config.discordance_threshold)
    && config.expected_harmonics.contains harmonics

/-- Spec-side status classifier: the claimed three-way banding of the consent
score with inclusive lower bounds. -/
def statusOfScore (c : ℚ) : String :=
  if c ≥ 0.75 then "Consent Granted"
  else if c ≥ 0.50 then "Needs Clarification"
  else "Consent Denied"

/-- Spec-side map from a wave category to its vocabulary flag. -/
def waveFlag (f : Flags) : Wave → Bool
  | .alpha => f.has_alpha
  | .beta => f.has_beta
  | .theta => f.has_theta
  | .gamma => f.has_gamma
  | .delta => f.has_delta

/-- The concrete input lines of spec Example 2. -/
def exampleLines : List Text := List.map String.toList ["", "อาจจะ ไม่แน่ใจ"]

/-! Definitional projections of the `qce_read` record. -/

lemma qce_read_intent (texts : List Text) :
    (qce_read texts).intent
      = intentOf (flagsOf (evalText texts))
          (decide ((evalText texts).length ≤ 30))
          (decide ((evalText texts).length ≤ 15)) := rfl

lemma qce_read_discordance (texts : List Text) :
    (qce_read texts).discordance
      = discordOf (flagsOf (evalText texts)) (evalText texts) := rfl

lemma qce_read_waves (texts : List Text) :
    (qce_read texts).waves
      = present_wavesOf (wave_scoresOf (flagsOf (evalText texts))
          (decide ((evalText texts).length ≤ 30)) (evalText texts)) := rfl

lemma qce_read_wm (texts : List Text) :
    (qce_read texts).wave_multiplier = wmOf (qce_read texts).waves := rfl

lemma qce_read_consent (texts : List Text) :
    (qce_read texts).consent_score
      = clamp01 ((0.7 * max 0 ((qce_read texts).intent - (qce_read texts).discordance)
          + 0.3 * (1 - |(qce_read texts).intent - (1 - (qce_read texts).discordance)|))
          * (qce_read texts).wave_multiplier) := rfl

lemma qce_read_status (texts : List Text) :
    (qce_read texts).status
      = (if (qce_read texts).consent_score ≥ 0.75 then "Consent Granted"
         else if (qce_read texts).consent_score ≥ 0.50 then "Needs Clarification"
         else "Consent Denied") := rfl

/-! Helper lemmas for the clamp and the accumulator form of the scores. -/

lemma ite_add (b : Bool) (x c : ℚ) :
    (if b then x + c else x) = x + (if b then c else 0) := by cases b <;> simp

lemma ite_sub (b : Bool) (x c : ℚ) :
    (if b then x - c else x) = x - (if b then c else 0) := by cases b <;> simp

lemma intentOf_eq (f : Flags) (s v : Bool) :
    intentOf f s v = clamp01 (0.5
      + (if f.has_assertive then 0.18 else 0)
      + (if f.has_theta then 0.15 else 0)
      + (if f.has_gamma then 0.15 else 0)
      + (if f.has_alpha then 0.05 else 0)
      + (if f.has_beta then 0.03 else 0)
      - (if f.has_hedge then 0.12 else 0)
      - (if f.has_neg_conflict then 0.20 else 0)
      + (if s then 0.05 else 0)
      + (if v && f.has_gamma then 0.03 else 0)) := by
  simp only [intentOf, ite_add, ite_sub]

lemma clamp01_nonneg (x : ℚ) : 0 ≤ clamp01 x := le_max_left _ _

lemma clamp01_le_one (x : ℚ) : clamp01 x ≤ 1 := max_le (by norm_num) (min_le_left _ _)

lemma discordOf_mem (f : Flags) (text : Text) :
    0 ≤ discordOf f text ∧ discordOf f text ≤ 1 := by
  unfold discordOf
  exact ⟨clamp01_nonneg _, clamp01_le_one _⟩

lemma present_wavesOf_ne_nil (scores : Wave → ℚ) : present_wavesOf scores ≠ [] := by
  unfold present_wavesOf
  by_cases h : (waveOrder.filter fun w => decide ((0.6 : ℚ) ≤ scores w)).isEmpty = true
  · simp [h]
  · rw [if_neg h]
    simpa [List.isEmpty_iff] using h

/-! Helper lemmas for substring search in a joined text: a nonempty token
that does not contain the separator is a substring of the joined text iff it
is a substring of one of the lines. -/

lemma sub_ext_right {tok a : Text} (c : Text) (h : tok <:+: a) : tok <:+: a ++ c := by
  obtain ⟨s, t, rfl⟩ := h
  exact ⟨s, t ++ c, by simp⟩

lemma sub_ext_left {tok b : Text} (a : Text) (h : tok <:+: b) : tok <:+: a ++ b := by
  obtain ⟨s, t, rfl⟩ := h
  exact ⟨a ++ s, t, by simp⟩

lemma pre_split {sep : Char} :
    ∀ (tok : Text), sep ∉ tok → ∀ (a b : Text), tok <+: a ++ sep :: b → tok <+: a := by
  intro tok
  induction tok with
  | nil => exact fun _ a b _ => ⟨a, rfl⟩
  | cons c tok' ih =>
    intro hsep a b h
    obtain ⟨t, ht⟩ := h
    cases a with
    | nil =>
      simp only [List.cons_append, List.nil_append] at ht
      injection ht with hc hrest
      subst hc
      exact absurd (List.mem_cons_self _ _) hsep
    | cons x a' =>
      simp only [List.cons_append] at ht
      injection ht with hc hrest
      subst hc
      have hsep' : sep ∉ tok' := fun hm => hsep (List.mem_cons_of_mem _ hm)
      obtain ⟨t', ht'⟩ := ih hsep' a' b ⟨t, hrest⟩
      exact ⟨t', by simp [ht']⟩

lemma sub_split {sep : Char} (tok b : Text) (hsep : sep ∉ tok) :
    ∀ a : Text, tok <:+: a ++ sep :: b → tok <:+: a ∨ tok <:+: b := by
  intro a
  induction a with
  | nil =>
    intro h
    obtain ⟨s, t, hst⟩ := h
    cases s with
    | nil =>
      cases tok with
      | nil => exact Or.inl ⟨[], [], rfl⟩
      | cons c tok' =>
        simp only [List.cons_append, List.nil_append] at hst
        injection hst with hc hrest
        subst hc
        exact absurd (List.mem_cons_self _ _) hsep
    | cons x s' =>
      simp only [List.cons_append, List.nil_append] at hst
      injection hst with hx hrest
      exact Or.inr ⟨s', t, hrest⟩
  | cons x a' ih =>
    intro h
    obtain ⟨s, t, hst⟩ := h
    cases s with
    | nil =>
      cases tok with
      | nil => exact Or.inl ⟨[], x :: a', rfl⟩
      | cons c tok' =>
        simp only [List.cons_append, List.nil_append] at hst
        injection hst with hc hrest
        subst hc
        have hsep' : sep ∉ tok' := fun hm => hsep (List.mem_cons_of_mem _ hm)
        obtain ⟨t', ht'⟩ := pre_split tok' hsep' a' b ⟨t, hrest⟩
        exact Or.inl ⟨[], t', by simp [← ht']⟩
    | cons y s' =>
      simp only [List.cons_append] at hst
      injection hst with hy hrest
      subst hy
      rcases ih ⟨s', t, hrest⟩ with h1 | h1
      · obtain ⟨s2, t2, h2⟩ := h1
        exact Or.inl ⟨y :: s2, t2, by simp [h2]⟩
      · exact Or.inr h1

lemma sub_joinWith {tok : Text} (hne : tok ≠ []) (hsep : '\n' ∉ tok) :
    ∀ ls : List Text, (tok <:+: joinWith '\n' ls ↔ ∃ l ∈ ls, tok <:+: l)
  | [] => by
      simp only [joinWith]
      constructor
      · rintro ⟨s, t, hst⟩
        simp only [List.append_eq_nil] at hst
        exact absurd hst.1.2 hne
      · rintro ⟨l, hl, -⟩
        exact absurd hl (List.not_mem_nil _)
  | [t] => by simp [joinWith]
  | t :: t' :: ts => by
      rw [joinWith]
      constructor
      · intro h
        rcases sub_split tok _ hsep t h with h1 | h1
        · exact ⟨t, List.mem_cons_self _ _, h1⟩
        · obtain ⟨l, hl, h2⟩ := (sub_joinWith hne hsep (t' :: ts)).1 h1
          exact ⟨l, List.mem_cons_of_mem _ hl, h2⟩
      · rintro ⟨l, hl, h2⟩
        rcases List.mem_cons.1 hl with rfl | hl'
        · exact sub_ext_right _ h2
        · exact sub_ext_left t
            (sub_ext_left ['\n'] ((sub_joinWith hne hsep (t' :: ts)).2 ⟨l, hl', h2⟩))

lemma any_congr_of_mem {α : Type} {p q : α → Bool} :
    ∀ l : List α, (∀ a ∈ l, p a = q a) → l.any p = l.any q
  | [], _ => rfl
  | a :: l, h => by
      simp only [List.any_cons]
      rw [h a (List.mem_cons_self _ _),
        any_congr_of_mem l fun b hb => h b (List.mem_cons_of_mem _ hb)]

lemma contains_any_joinWith_perm {V : List Text}
    (hV : ∀ tok ∈ V, tok ≠ [] ∧ '\n' ∉ tok)
    {ls1 ls2 : List Text} (hp : ls1.Perm ls2) :
    contains_any (joinWith '\n' ls1) V = contains_any (joinWith '\n' ls2) V := by
  unfold contains_any
  refine any_congr_of_mem V fun tok htok => ?_
  obtain ⟨hne, hsep⟩ := hV tok htok
  rw [decide_eq_decide, sub_joinWith hne hsep ls1, sub_joinWith hne hsep ls2]
  constructor
  · rintro ⟨l, hl, h⟩
    exact ⟨l, hp.mem_iff.mp hl, h⟩
  · rintro ⟨l, hl, h⟩
    exact ⟨l, hp.mem_iff.mpr hl, h⟩

lemma flagsOf_perm {t1 t2 : List Text} (hp : t1.Perm t2) :
    flagsOf (evalText t1) = flagsOf (evalText t2) := by
  have hlp : (List.map pyStrip (t1.filter fun t => !t.isEmpty && !(pyStrip t).isEmpty)).Perm
      (List.map pyStrip (t2.filter fun t => !t.isEmpty && !(pyStrip t).isEmpty)) :=
    (hp.filter _).map _
  simp only [flagsOf, evalText, Flags.mk.injEq]
  refine ⟨?_, ?_, ?_, ?_, ?_, ?_, ?_, ?_⟩ <;>
    exact contains_any_joinWith_perm (by decide) hlp

/-! Helper lemmas for blank-line tolerance and the theta core vocabulary. -/

lemma evalText_filter (texts : List Text) :
    evalText (texts.filter fun t => !(pyStrip t).isEmpty) = evalText texts := by
  unfold evalText
  rw [List.filter_filter]
  have hpred : ∀ t : Text,
      ((!t.isEmpty && !(pyStrip t).isEmpty) && !(pyStrip t).isEmpty)
        = (!t.isEmpty && !(pyStrip t).isEmpty) := fun t => by
    cases h1 : t.isEmpty <;> cases h2 : (pyStrip t).isEmpty <;> simp [h1, h2]
  simp only [hpred]

lemma qce_read_congr {t1 t2 : List Text} (h : evalText t1 = evalText t2) :
    qce_read t1 = qce_read t2 := by
  unfold qce_read
  rw [h]

lemma core_sub_theta : ∀ tok ∈ CORE_TOKENS, tok ∈ THETA_TOKENS := by decide

lemma flagsOf_theta (text : Text) :
    (flagsOf text).has_theta = contains_any text THETA_TOKENS := rfl

lemma contains_core_theta {text : Text} (h : contains_any text CORE_TOKENS = true) :
    contains_any text THETA_TOKENS = true := by
  unfold contains_any at h ⊢
  rw [List.any_eq_true] at h ⊢
  obtain ⟨tok, htok, hh⟩ := h
  exact ⟨tok, core_sub_theta tok htok, hh⟩

/-- C1: for every input, the status returned by `qce_read` is a deterministic
function of the consent score alone with inclusive lower bounds: a score of
at least 0.75 yields Granted, at least 0.50 but below 0.75 yields
NeedsClarification, and below 0.50 yields Denied; in particular a consent
score of exactly 0.75 yields Granted, 0.50 yields NeedsClarification, and
0.4999 yields Denied. -/
theorem status_function_of_consent_score :
    (∀ texts : List Text,
      (qce_read texts).status = statusOfScore (qce_read texts).consent_score)
    ∧ statusOfScore 0.75 = "Consent Granted"
    ∧ statusOfScore 0.50 = "Needs Clarification"
    ∧ statusOfScore 0.4999 = "Consent Denied" := by
  refine ⟨fun texts => rfl, ?_, ?_, ?_⟩ <;> norm_num [statusOfScore]

/-- C2: for every input, `qce_read` computes intent by starting at 0.5 and
adding +0.18 for the assertive flag, +0.15 for the theta flag, +0.15 for the
gamma flag, +0.05 for the alpha flag, +0.03 for the beta flag, subtracting
0.12 for the hedge flag and 0.20 for the negative-conflict flag, adding
+0.05 when the text length is at most 30, and +0.03 when the text length is
at most 15 and the gamma flag is set, then clamping to `[0,1]`. -/
theorem intent_additive_formula : ∀ texts : List Text,
    (qce_read texts).intent = clamp01 (0.5
      + (if (flagsOf (evalText texts)).has_assertive then 0.18 else 0)
      + (if (flagsOf (evalText texts)).has_theta then 0.15 else 0)
      + (if (flagsOf (evalText texts)).has_gamma then 0.15 else 0)
      + (if (flagsOf (evalText texts)).has_alpha then 0.05 else 0)
      + (if (flagsOf (evalText texts)).has_beta then 0.03 else 0)
      - (if (flagsOf (evalText texts)).has_hedge then 0.12 else 0)
      - (if (flagsOf (evalText texts)).has_neg_conflict then 0.20 else 0)
      + (if (evalText texts).length ≤ 30 then 0.05 else 0)
      + (if (evalText texts).length ≤ 15 ∧ (flagsOf (evalText texts)).has_gamma = true
          then 0.03 else 0)) := by
  intro texts
  rw [qce_read_intent, intentOf_eq]
  simp only [Bool.and_eq_true, decide_eq_true_eq]

/-- C3: for every input, the wave multiplier of `qce_read` is the arithmetic
mean of the fixed per-wave multipliers (alpha 1.00, beta 0.95, theta 1.05,
delta 0.90, gamma 1.10) over the present-waves list, and the consent score is
the clamp to `[0,1]` of
`(0.7 * max 0 (intent - discordance) + 0.3 * (1 - |intent - (1 - discordance)|)) * wave_multiplier`. -/
theorem wave_multiplier_mean_and_consent_formula :
    (∀ texts : List Text,
      (qce_read texts).wave_multiplier
          = ((qce_read texts).waves.map WAVE_MULTIPLIER).sum
              / ((qce_read texts).waves.length : ℚ)
        ∧ (qce_read texts).consent_score
          = clamp01 ((0.7 * max 0 ((qce_read texts).intent - (qce_read texts).discordance)
              + 0.3 * (1 - |(qce_read texts).intent - (1 - (qce_read texts).discordance)|))
              * (qce_read texts).wave_multiplier))
    ∧ WAVE_MULTIPLIER .alpha = 1.00 ∧ WAVE_MULTIPLIER .beta = 0.95
    ∧ WAVE_MULTIPLIER .theta = 1.05 ∧ WAVE_MULTIPLIER .delta = 0.90
    ∧ WAVE_MULTIPLIER .gamma = 1.10 :=
  ⟨fun _ => ⟨rfl, rfl⟩, rfl, rfl, rfl, rfl, rfl⟩

/-- C4: for every input to `qce_read`, the returned intent, discordance and
consent score all lie in the closed interval `[0,1]`. -/
theorem scores_in_unit_interval : ∀ texts : List Text,
    (0 ≤ (qce_read texts).intent ∧ (qce_read texts).intent ≤ 1)
    ∧ (0 ≤ (qce_read texts).discordance ∧ (qce_read texts).discordance ≤ 1)
    ∧ (0 ≤ (qce_read texts).consent_score ∧ (qce_read texts).consent_score ≤ 1) := by
  intro texts
  refine ⟨?_, ?_, ?_⟩
  · rw [qce_read_intent, intentOf_eq]
    exact ⟨clamp01_nonneg _, clamp01_le_one _⟩
  · rw [qce_read_discordance]
    exact discordOf_mem _ _
  · rw [qce_read_consent]
    exact ⟨clamp01_nonneg _, clamp01_le_one _⟩

/-- C5: for every input, the present-waves list returned by `qce_read` is
never empty; it is the fixed-order list alpha, beta, theta, gamma, delta
filtered to the categories whose score is at least 0.6, except that when no
category reaches 0.6 it is exactly `[alpha]`. -/
theorem present_waves_spec : ∀ texts : List Text,
    (qce_read texts).waves ≠ []
    ∧ (qce_read texts).waves =
        (let pw := waveOrder.filter fun w =>
            decide ((0.6 : ℚ) ≤ wave_scoresOf (flagsOf (evalText texts))
              (decide ((evalText texts).length ≤ 30)) (evalText texts) w)
         if pw.isEmpty then [Wave.alpha] else pw)
    ∧ ((∀ w : Wave, wave_scoresOf (flagsOf (evalText texts))
          (decide ((evalText texts).length ≤ 30)) (evalText texts) w < 0.6)
        → (qce_read texts).waves = [Wave.alpha]) := by
  intro texts
  refine ⟨by rw [qce_read_waves]; exact present_wavesOf_ne_nil _, rfl, ?_⟩
  intro h
  rw [qce_read_waves]
  unfold present_wavesOf
  have hw : ∀ w : Wave,
      decide ((0.6 : ℚ) ≤ wave_scoresOf (flagsOf (evalText texts))
        (decide ((evalText texts).length ≤ 30)) (evalText texts) w) = false :=
    fun w => by simp [not_le.mpr (h w)]
  simp [waveOrder, hw]

/-- Witness for C5: on the empty input no category score reaches 0.6 and the
present-waves list is exactly `[alpha]`. -/
theorem present_waves_spec_witness : (qce_read []).waves = [Wave.alpha] :=
  (present_waves_spec []).2.2 (by
    intro w
    have hf : flagsOf (evalText [])
        = ⟨false, false, false, false, false, false, false, false⟩ := by decide
    have hcore : contains_any (evalText []) CORE_TOKENS = false := by decide
    have h30 : decide ((evalText []).length ≤ 30) = true := by decide
    rw [hf, h30]
    cases w <;> norm_num [wave_scoresOf, hcore])

/-- C6: on the input lines `["", "อาจจะ ไม่แน่ใจ"]` the hedge and
negative-conflict flags fire, the text is short, intent is
`clamp(0.5 - 0.12 - 0.20 + 0.05) = 0.23`, discordance is
`clamp(0.30 + 0.20 + 0.25) = 0.75`, the consent score is low (0.294, below
0.5), and the status is Denied. -/
theorem example_hedge_conflict_denied :
    (flagsOf (evalText exampleLines)).has_hedge = true
    ∧ (flagsOf (evalText exampleLines)).has_neg_conflict = true
    ∧ (evalText exampleLines).length ≤ 30
    ∧ (qce_read exampleLines).intent = 0.23
    ∧ (qce_read exampleLines).discordance = 0.75
    ∧ (qce_read exampleLines).consent_score = 0.294
    ∧ (qce_read exampleLines).consent_score < 0.5
    ∧ (qce_read exampleLines).status = "Consent Denied" := by
  have hf : flagsOf (evalText exampleLines)
      = ⟨true, false, true, false, false, false, false, false⟩ := by decide
  have h30 : decide ((evalText exampleLines).length ≤ 30) = true := by decide
  have h15 : decide ((evalText exampleLines).length ≤ 15) = true := by decide
  have hphrase : decide (String.toList "ไม่ต้องพูด" <:+: evalText exampleLines) = false := by
    decide
  have hcore : contains_any (evalText exampleLines) CORE_TOKENS = false := by decide
  have hint : (qce_read exampleLines).intent = 0.23 := by
    rw [qce_read_intent, hf, h30, h15]
    norm_num [intentOf, clamp01, min_def, max_def]
  have hdis : (qce_read exampleLines).discordance = 0.75 := by
    rw [qce_read_discordance, hf]
    simp only [discordOf, hphrase]
    norm_num [clamp01, min_def, max_def]
  have hwaves : (qce_read exampleLines).waves = [Wave.alpha] := by
    rw [qce_read_waves, hf, h30]
    norm_num [present_wavesOf, wave_scoresOf, waveOrder, List.filter, hcore]
  have hwm : (qce_read exampleLines).wave_multiplier = 1 := by
    rw [qce_read_wm, hwaves]
    norm_num [wmOf, WAVE_MULTIPLIER]
  have hcs : (qce_read exampleLines).consent_score = 0.294 := by
    rw [qce_read_consent, hint, hdis, hwm]
    norm_num [clamp01, min_def, max_def, abs_eq_max_neg]
  have hstatus : (qce_read exampleLines).status = "Consent Denied" := by
    rw [qce_read_status, hcs]
    norm_num
  exact ⟨by rw [hf], by rw [hf], by decide, hint, hdis, hcs, by rw [hcs]; norm_num, hstatus⟩

/-- C7: for every input list of lines and every permutation of it, `qce_read`
derives the same eight vocabulary feature flags: substring containment on the
newline-joined text is order-independent. -/
theorem flags_permutation_invariant : ∀ t1 t2 : List Text, t1.Perm t2 →
    flagsOf (evalText t1) = flagsOf (evalText t2) :=
  fun _ _ hp => flagsOf_perm hp

/-- Witness for C7: swapping two concrete lines leaves the feature flags
unchanged. -/
theorem flags_permutation_invariant_witness :
    flagsOf (evalText (List.map String.toList ["สงบ", "เพราะ"]))
      = flagsOf (evalText (List.map String.toList ["เพราะ", "สงบ"])) :=
  flags_permutation_invariant _ _ (by decide)

/-- C8: `qce_read` is total over its input domain — in the embedding it is a
total function returning a complete record whose waves list is nonempty and
whose status is one of the three enumerated values — and empty or
whitespace-only lines contribute nothing: removing them leaves the result
unchanged. -/
theorem qce_read_total_blank_line_invariant : ∀ texts : List Text,
    qce_read (texts.filter fun t => !(pyStrip t).isEmpty) = qce_read texts
    ∧ (qce_read texts).waves ≠ []
    ∧ ((qce_read texts).status = "Consent Granted"
        ∨ (qce_read texts).status = "Needs Clarification"
        ∨ (qce_read texts).status = "Consent Denied") := by
  intro texts
  refine ⟨qce_read_congr (evalText_filter texts),
    by rw [qce_read_waves]; exact present_wavesOf_ne_nil _, ?_⟩
  rw [qce_read_status]
  split
  · exact Or.inl rfl
  · split
    · exact Or.inr (Or.inl rfl)
    · exact Or.inr (Or.inr rfl)

/-- C9: the legacy threshold engine returns true iff the intent score is at
least 0.88, the discordance is at most 0.7 and the wave is in the allow-list
containing alpha and beta; with wave "theta" it returns false regardless of
the other values. -/
theorem legacy_engine_threshold_spec :
    (∀ (i d : ℚ) (w : String),
      evaluate_consent defaultConfig i d w = true
        ↔ ((0.88 : ℚ) ≤ i ∧ d ≤ (0.7 : ℚ) ∧ (w = "alpha" ∨ w = "beta")))
    ∧ (∀ i d : ℚ, evaluate_consent defaultConfig i d "theta" = false) := by
  constructor
  · intro i d w
    simp [evaluate_consent, defaultConfig, List.contains, List.elem_eq_mem, ge_iff_le,
      and_assoc]
  · intro i d
    simp [evaluate_consent, defaultConfig]

/-- C10: for every input, each wave category scores at least 0.6 iff its
vocabulary flag is true — the secondary core/essence vocabulary is contained
in the primary theta vocabulary and the two +0.1 bonuses stay below the 0.6
cutoff, so neither bonus changes which waves are present before the
empty-case default. -/
theorem wave_presence_iff_flag :
    (∀ (texts : List Text) (w : Wave),
      decide ((0.6 : ℚ) ≤ wave_scoresOf (flagsOf (evalText texts))
          (decide ((evalText texts).length ≤ 30)) (evalText texts) w)
        = waveFlag (flagsOf (evalText texts)) w)
    ∧ CORE_TOKENS.all (fun tok => decide (tok ∈ THETA_TOKENS)) = true := by
  refine ⟨fun texts w => ?_, by decide⟩
  cases w
  case alpha =>
    cases hfa : (flagsOf (evalText texts)).has_alpha <;>
      simp [wave_scoresOf, waveFlag, hfa] <;> norm_num
  case beta =>
    cases hfb : (flagsOf (evalText texts)).has_beta <;>
      simp [wave_scoresOf, waveFlag, hfb] <;> norm_num
  case delta =>
    cases hfd : (flagsOf (evalText texts)).has_delta <;>
      simp [wave_scoresOf, waveFlag, hfd] <;> norm_num
  case gamma =>
    cases hfg : (flagsOf (evalText texts)).has_gamma <;>
      cases hs : decide ((evalText texts).length ≤ 30) <;>
        simp [wave_scoresOf, waveFlag, hfg, hs] <;> norm_num
  case theta =>
    cases hft : (flagsOf (evalText texts)).has_theta <;>
      cases hc : contains_any (evalText texts) CORE_TOKENS
    · simp [wave_scoresOf, waveFlag, hft, hc] <;> norm_num
    · rw [flagsOf_theta] at hft
      rw [contains_core_theta hc] at hft
      cases hft
    · simp [wave_scoresOf, waveFlag, hft, hc]; norm_num
    · simp [wave_scoresOf, waveFlag, hft, hc]; norm_num

end QCE
